import Mathlib

/-!
Verification of the assignment-and-initialization subsystem of the types2
type checker (file cmd/compile/internal/types2/assignments.go).

The Go source is embedded shallowly: every function of assignments.go that
the claims touch (assignment, initConst, initVar, lhsVar, initVars,
shortVarDecl, together with the helpers operandTypes, varTypes,
typesSummary, measure, assignError, unparen) is translated into a Lean
definition of the same name.  External collaborators that live in other
files of the repository (the expression evaluator, the assignability
oracle, implicit conversion, scope lookup, the delayed-actions queue) are
modelled as function-valued fields of an environment structure Env, and
checker state that the embedded code mutates (variable objects, the
recorded expression types/values, recorded uses/defs) is threaded through
an explicit state St.  Diagnostics emitted by the embedded code are
returned explicitly as lists.
-/

namespace Types2Assign

/-- Basic type kinds needed by the embedded code.  Mirrors the relevant
part of the types2 BasicKind enumeration: the invalid sentinel, the typed
basics that serve as default types, and the untyped constant kinds. -/
inductive BasicKind where
  | invalid
  | bool
  | int
  | rune
  | float64
  | complex128
  | str
  | untypedBool
  | untypedInt
  | untypedRune
  | untypedFloat
  | untypedComplex
  | untypedString
  | untypedNil
deriving DecidableEq, Repr

/-- Static types, classified by the predicates the embedded code consults:
basics (typed and untyped), interfaces, type parameters (whose underlying
type is their constraint interface), signatures carrying the count of
their own type parameters, tuples, slices, and named (defined) types with
an underlying type.  Tuples describe multi-valued expression results; the
only tuple shape this file ever inspects is the two-result pair of the
comma-ok form, so the constructor is binary. -/
inductive Ty where
  | basic (k : BasicKind)
  | interface_ (id : Nat)
  | typeParam (id : Nat) (bound : Ty)
  | signature (tparams : Nat) (id : Nat)
  | tuple (fst snd : Ty)
  | slice (elem : Ty)
  | named (id : Nat) (underlying : Ty)
deriving DecidableEq, Repr

/-- The invalid type sentinel, Typ[Invalid] in the source. -/
def invalidType : Ty := .basic .invalid

/-- Modelled from the spec: under returns the underlying type of a defined
type; the underlying type of a type parameter is its constraint
interface.  (The function under lives outside the embedded file.) -/
def under : Ty → Ty
  | .named _ u => u
  | .typeParam _ b => b
  | t => t

/-- Modelled from the spec: a type is untyped when it is one of the
untyped constant kinds (boolean, rune, integer, floating-point, complex,
string, nil).  (isUntyped lives outside the embedded file.) -/
def isUntyped : Ty → Bool
  | .basic .untypedBool => true
  | .basic .untypedInt => true
  | .basic .untypedRune => true
  | .basic .untypedFloat => true
  | .basic .untypedComplex => true
  | .basic .untypedString => true
  | .basic .untypedNil => true
  | _ => false

/-- Modelled from the spec: an untyped numeric constant kind (integer,
rune, floating-point, complex).  (isNumeric lives outside the embedded
file; only its restriction to untyped basics is needed here.) -/
def isUntypedNumeric : Ty → Bool
  | .basic .untypedInt => true
  | .basic .untypedRune => true
  | .basic .untypedFloat => true
  | .basic .untypedComplex => true
  | _ => false

/-- Modelled from the spec: the default-type table for untyped constants:
boolean, rune, integer, floating-point, complex and string literals
default to bool, rune, int, float64, complex128 and string; every other
type (including untyped nil) is its own default.  (Default lives outside
the embedded file.) -/
def defaultType : Ty → Ty
  | .basic .untypedBool => .basic .bool
  | .basic .untypedInt => .basic .int
  | .basic .untypedRune => .basic .rune
  | .basic .untypedFloat => .basic .float64
  | .basic .untypedComplex => .basic .complex128
  | .basic .untypedString => .basic .str
  | t => t

/-- Modelled from the spec: whether a type is a type parameter. -/
def isTypeParam : Ty → Bool
  | .typeParam _ _ => true
  | _ => false

/-- Modelled from the spec: whether the underlying type is an
interface. -/
def isInterface (t : Ty) : Bool :=
  match under t with
  | .interface_ _ => true
  | _ => false

/-- Modelled from the spec: a non-type-parameter interface, the target
class that triggers constant defaulting even when a target type is
present.  (isNonTypeParamInterface lives outside the embedded file.) -/
def isNonTypeParamInterface (t : Ty) : Bool :=
  !isTypeParam t && isInterface t

/-- The names of the basic types, as rendered by the universe table;
needed by typesSummary, which strips the untyped qualifier. -/
def basicName : BasicKind → String
  | .invalid => "invalid type"
  | .bool => "bool"
  | .int => "int"
  | .rune => "rune"
  | .float64 => "float64"
  | .complex128 => "complex128"
  | .str => "string"
  | .untypedBool => "untyped bool"
  | .untypedInt => "untyped int"
  | .untypedRune => "untyped rune"
  | .untypedFloat => "untyped float"
  | .untypedComplex => "untyped complex"
  | .untypedString => "untyped string"
  | .untypedNil => "untyped nil"

/-- Operand modes.  The seven modes listed in the assignment switch are
legal assignment operands; novalue, builtin and typexpr are the other
operand modes of the checker, reachable only through checker-internal
inconsistencies (the defensive default branch). -/
inductive Mode where
  | invalid
  | novalue
  | builtin
  | typexpr
  | constant_
  | variable_
  | mapindex
  | value
  | nilvalue
  | commaok
  | commaerr
deriving DecidableEq, Repr

/-- Constant values, kept abstract except for what the claims need. -/
inductive Val where
  | int (n : Int)
  | str (s : String)
  | bool (b : Bool)
  | other (tag : Nat)
deriving DecidableEq, Repr

/-- Expression nodes of the syntax tree, restricted to the shapes the
embedded code inspects: identifiers, parenthesized expressions, selector
expressions, call expressions, and an opaque catch-all.  Every node
carries its source position. -/
inductive SExpr where
  | name (value : String) (p : Nat)
  | paren (inner : SExpr) (p : Nat)
  | selector (base : SExpr) (field : String) (p : Nat)
  | call (fn : SExpr) (nargs : Nat) (p : Nat)
  | other (tag : Nat) (p : Nat)
deriving DecidableEq, Repr

/-- Source position of an expression node. -/
def SExpr.pos : SExpr → Nat
  | .name _ p => p
  | .paren _ p => p
  | .selector _ _ p => p
  | .call _ _ p => p
  | .other _ p => p

/-- unparen removes enclosing parentheses, as in the source helper. -/
def unparen : SExpr → SExpr
  | .paren e _ => unparen e
  | e => e

/-- An operand descriptor: the evaluated result of one expression. -/
structure Operand where
  mode : Mode
  typ : Ty
  val : Option Val
  expr : SExpr
deriving DecidableEq, Repr

/-- Modelled from the spec: the nil literal is the operand whose mode is
the nil-literal mode.  (The isNil method lives outside the embedded
file.) -/
def Operand.isNil (x : Operand) : Bool :=
  x.mode = .nilvalue

/-- Error codes used by the embedded code (internal/types/errors). -/
inductive ErrCode where
  | IncompatibleAssign
  | UntypedNilUse
  | TruncatedFloat
  | NumericOverflow
  | WrongTypeArgCount
  | InvalidConstInit
  | WrongAssignCount
  | WrongResultCount
  | UnassignableOperand
  | UnaddressableFieldAssign
  | BadDecl
  | RepeatedDecl
  | NoNewVar
  | other (n : Nat)
deriving DecidableEq, Repr

/-- A reported diagnostic: position, error code, primary message, extra
follow-on lines (position and text), and whether it was reported through
the soft-error entry point. -/
structure Diag where
  pos : Nat
  code : ErrCode
  msg : String
  extra : List (Nat × String) := []
  soft : Bool := false
deriving DecidableEq, Repr

/-- Variable identity: an index into the checker state's variable
store. -/
abbrev VarId := Nat

/-- The mutable fields of a declared variable object: its name, owning
package, declared type (absent until first initialization infers it) and
the used flag. -/
structure VarState where
  name : String
  pkg : Nat
  typ : Option Ty
  used : Bool
deriving DecidableEq, Repr

/-- A declared constant object: declared type (absent until resolved) and
recorded value. -/
structure ConstE where
  typ : Option Ty
  val : Option Val
deriving DecidableEq, Repr

/-- An object found by scope lookup: a variable or something else. -/
inductive Obj where
  | var (id : VarId)
  | other (tag : Nat)
deriving DecidableEq, Repr

/-- The checker state mutated by the embedded code: the variable store,
the next fresh variable id, the length of the delayed-actions queue, and
the recorded expression values, expression types, comma-ok type pairs,
uses and definitions. -/
structure St where
  vars : VarId → VarState
  nextVar : VarId
  delayedLen : Nat
  exprVals : List (SExpr × Val)
  exprTypes : List (SExpr × Ty × Bool)
  commaOkRec : List (SExpr × Option Ty × Option Ty)
  uses : List (SExpr × Obj)
  defs : List (SExpr × Option VarId)

/-- Overwrite the state of one variable. -/
def St.setVar (st : St) (vid : VarId) (vs : VarState) : St :=
  { st with vars := fun u => if u = vid then vs else st.vars u }

/-- Allocate a fresh variable object (NewVar): no declared type yet, not
used. -/
def St.newVar (st : St) (pkg : Nat) (name : String) : St × VarId :=
  let vid := st.nextVar
  ({ st with
      vars := fun u => if u = vid then ⟨name, pkg, none, false⟩ else st.vars u,
      nextVar := vid + 1 },
   vid)

/-- The environment of external collaborators: the package identity and
the operations this file consumes from the rest of the repository
(expression evaluation, implicit conversion, assignability, scope lookup,
rendering, the delayed queue, scope insertion). -/
structure Env where
  pkg : Nat
  implicitTypeAndValue : Operand → Ty → Ty × Option Val × Option ErrCode
  assignableTo : Operand → Ty → Bool × String × ErrCode
  sprintfOp : Operand → String
  sprintfTy : Ty → String
  sprintfExpr : SExpr → String
  expr : St → SExpr → St × Operand
  exprList : St → List SExpr → Bool → St × List Operand × Bool
  use : St → List SExpr → St
  lookup : St → String → Option Obj
  scopeLookup : St → String → Option Obj
  processDelayed : St → Nat → St
  declare : St → VarId → Nat → St
  endPos : SExpr → Nat

/-- Rendering of a possibly absent type in a format directive (a nil Go
interface prints as a bracketed nil). -/
def sprintfOptTy (env : Env) : Option Ty → String
  | none => "<nil>"
  | some t => env.sprintfTy t

/-- Modelled from the spec: single-value reduction reduces a two-result
operand (the paired value and presence-or-error component of a comma-ok
form) to its primary component, discarding the presence/error component.
(singleValue lives outside the embedded file.) -/
def singleValue (x : Operand) : Operand :=
  match x.mode, x.typ with
  | .commaok, .tuple a _ => { x with typ := a }
  | .commaerr, .tuple a _ => { x with typ := a }
  | _, _ => x

/-- The seven operand modes accepted by the assignment switch. -/
def assignableMode : Mode → Bool
  | .constant_ => true
  | .variable_ => true
  | .mapindex => true
  | .value => true
  | .nilvalue => true
  | .commaok => true
  | .commaerr => true
  | _ => false

/-- The diagnostic of the defensive default branch of the assignment
switch. -/
def diagAssignDefault (env : Env) (x : Operand) (T : Option Ty) (context : String) : Diag :=
  { pos := x.expr.pos, code := .IncompatibleAssign,
    msg := "cannot assign " ++ env.sprintfOp x ++ " to " ++ sprintfOptTy env T
      ++ " in " ++ context }

/-- The untyped-nil-without-target diagnostic, shared by assignment and
initVar. -/
def diagUntypedNilUse (x : Operand) (context : String) : Diag :=
  { pos := x.expr.pos, code := .UntypedNilUse,
    msg := "use of untyped nil in " ++ context }

/-- The advisory diagnostic for a generic function value used without
instantiation. -/
def diagGenericFun (env : Env) (x : Operand) (context : String) : Diag :=
  { pos := x.expr.pos, code := .WrongTypeArgCount,
    msg := "cannot use generic function " ++ env.sprintfOp x
      ++ " without instantiation in " ++ context }

/-- The diagnostic for a failed assignability check, with the
oracle-supplied cause appended when present. -/
def diagNotAssignable (env : Env) (x : Operand) (t : Ty) (context : String)
    (cause : String) (code : ErrCode) : Diag :=
  { pos := x.expr.pos, code := code,
    msg :=
      if cause ≠ "" then
        "cannot use " ++ env.sprintfOp x ++ " as " ++ env.sprintfTy t
          ++ " value in " ++ context ++ ": " ++ cause
      else
        "cannot use " ++ env.sprintfOp x ++ " as " ++ env.sprintfTy t
          ++ " value in " ++ context }

/-- Whether the underlying type of an operand type is a signature with at
least one of its own type parameters (a generic, uninstantiated function
value). -/
def genericSig (t : Ty) : Bool :=
  match under t with
  | .signature n _ => decide (0 < n)
  | _ => false

/-- The tail of assignment (source lines 78 to 98): the advisory generic
function check, the early return for an absent target, and the
assignability query. -/
def assignmentTail (env : Env) (st : St) (x : Operand) (T : Option Ty)
    (context : String) : St × Operand × List Diag :=
  let gdiags : List Diag :=
    if genericSig x.typ then [diagGenericFun env x context] else []
  match T with
  | none => (st, x, gdiags)
  | some t =>
    let r := env.assignableTo x t
    if r.1 then (st, x, gdiags)
    else (st, { x with mode := .invalid },
          gdiags ++ [diagNotAssignable env x t context r.2.1 r.2.2])

/-- The conversion step of assignment (source lines 52 to 75): attempt
the implicit literal-to-target conversion, on failure classify the error
code (truncated, overflows, or the generic incompatible assignment) and
invalidate; on success propagate a changed value and a changed type to
the recorded expression tables, then continue with the tail. -/
def assignmentConv (env : Env) (st : St) (x : Operand) (T : Option Ty)
    (context : String) (target : Ty) : St × Operand × List Diag :=
  let r := env.implicitTypeAndValue x target
  let newType := r.1
  let val := r.2.1
  match r.2.2 with
  | some c =>
    let msg := "cannot use " ++ env.sprintfOp x ++ " as " ++ env.sprintfTy target
      ++ " value in " ++ context
    let cm : ErrCode × String :=
      match c with
      | .TruncatedFloat => (c, msg ++ " (truncated)")
      | .NumericOverflow => (c, msg ++ " (overflows)")
      | _ => (.IncompatibleAssign, msg)
    (st, { x with mode := .invalid },
     [{ pos := x.expr.pos, code := cm.1, msg := cm.2 }])
  | none =>
    let sx : St × Operand :=
      match val with
      | some v => ({ st with exprVals := (x.expr, v) :: st.exprVals },
                   { x with val := some v })
      | none => (st, x)
    let st := sx.1
    let x := sx.2
    let sx2 : St × Operand :=
      if newType ≠ x.typ then
        ({ st with exprTypes := (x.expr, newType, false) :: st.exprTypes },
         { x with typ := newType })
      else (st, x)
    assignmentTail env sx2.1 sx2.2 T context

/-- assignment reports whether x can be assigned to a variable of type T,
converting untyped values if necessary.  T is absent for assignment to an
untyped blank identifier.  Translated from Checker.assignment. -/
def assignment (env : Env) (st : St) (x0 : Operand) (T : Option Ty)
    (context : String) : St × Operand × List Diag :=
  let x := singleValue x0
  if x.mode = .invalid then
    (st, x, [])
  else if assignableMode x.mode then
    if isUntyped x.typ then
      if x.isNil then
        match T with
        | none => (st, { x with mode := .invalid }, [diagUntypedNilUse x context])
        | some t => assignmentConv env st x T context t
      else
        match T with
        | none => assignmentConv env st x T context (defaultType x.typ)
        | some t =>
          if isNonTypeParamInterface t then
            assignmentConv env st x T context (defaultType x.typ)
          else
            assignmentConv env st x T context t
    else
      assignmentTail env st x T context
  else
    (st, x, [diagAssignDefault env x T context])

/-- initConst checks the initialization of a constant object from a
right-hand operand.  Translated from Checker.initConst.  The entity is
passed and returned by value; diagnostics are returned explicitly. -/
def initConst (env : Env) (st : St) (lhs : ConstE) (x : Operand) :
    St × ConstE × List Diag :=
  if x.mode = .invalid ∨ x.typ = invalidType ∨ lhs.typ = some invalidType then
    let lhs := if lhs.typ = none then { lhs with typ := some invalidType } else lhs
    (st, lhs, [])
  else if x.mode ≠ .constant_ then
    let d : Diag := { pos := x.expr.pos, code := .InvalidConstInit,
                      msg := env.sprintfOp x ++ " is not constant" }
    let lhs := if lhs.typ = none then { lhs with typ := some invalidType } else lhs
    (st, lhs, [d])
  else
    let lhs := if lhs.typ = none then { lhs with typ := some x.typ } else lhs
    let r := assignment env st x lhs.typ "constant declaration"
    if r.2.1.mode = .invalid then (r.1, lhs, r.2.2)
    else (r.1, { lhs with val := r.2.1.val }, r.2.2)

/-- The delegation step of initVar: run assignment against the resolved
declared type; on failure mark the variable used and return absent, on
success return the converted operand type. -/
def initVarAssign (env : Env) (st : St) (vid : VarId) (x : Operand) (t : Ty)
    (context : String) : St × Option Ty × List Diag :=
  let r := assignment env st x (some t) context
  if r.2.1.mode = .invalid then
    let st := r.1
    (st.setVar vid { st.vars vid with used := true }, none, r.2.2)
  else
    (r.1, some r.2.1.typ, r.2.2)

/-- initVar checks the initialization of the variable vid from operand x,
inferring a declared type from the operand when the variable has none
yet.  Translated from Checker.initVar.  The variable lives in the state
store; the returned type is absent exactly when the initialization
failed. -/
def initVar (env : Env) (st : St) (vid : VarId) (x : Operand)
    (context : String) : St × Option Ty × List Diag :=
  let v := st.vars vid
  if x.mode = .invalid ∨ x.typ = invalidType ∨ v.typ = some invalidType then
    let v := if v.typ = none then { v with typ := some invalidType } else v
    (st.setVar vid { v with used := true }, none, [])
  else
    match v.typ with
    | none =>
      if isUntyped x.typ then
        if x.typ = .basic .untypedNil then
          (st.setVar vid { v with typ := some invalidType }, none,
           [diagUntypedNilUse x context])
        else
          initVarAssign env (st.setVar vid { v with typ := some (defaultType x.typ) })
            vid x (defaultType x.typ) context
      else
        initVarAssign env (st.setVar vid { v with typ := some x.typ }) vid x x.typ context
    | some t => initVarAssign env st vid x t context

/-- The snapshot step of lhsVar: if the identifier denotes a variable of
the current package, remember it together with the current value of its
used flag. -/
def lhsVarSnapshot (env : Env) (st : St) (nm : String) : Option (VarId × Bool) :=
  match env.lookup st nm with
  | some (.var w) =>
    if (st.vars w).pkg = env.pkg then some (w, (st.vars w).used) else none
  | _ => none

/-- The evaluation step of lhsVar: evaluate the left-hand expression,
restore the snapshotted used flag, then check addressability, with the
refined diagnostic for a field selector whose base is a map index
result. -/
def lhsVarEval (env : Env) (st : St) (lhs : SExpr) (snap : Option (VarId × Bool)) :
    St × Option Ty × List Diag :=
  let r := env.expr st lhs
  let st := r.1
  let x := r.2
  let st :=
    match snap with
    | some (w, u) => st.setVar w { st.vars w with used := u }
    | none => st
  if x.mode = .invalid ∨ x.typ = invalidType then
    (st, some invalidType, [])
  else
    match x.mode with
    | .invalid => (st, some invalidType, [])
    | .variable_ => (st, some x.typ, [])
    | .mapindex => (st, some x.typ, [])
    | _ =>
      match x.expr with
      | .selector base f p =>
        let r2 := env.expr st base
        if r2.2.mode = .mapindex then
          (r2.1, some invalidType,
           [{ pos := x.expr.pos, code := .UnaddressableFieldAssign,
              msg := "cannot assign to struct field "
                ++ env.sprintfExpr (.selector base f p) ++ " in map" }])
        else
          (r2.1, some invalidType,
           [{ pos := x.expr.pos, code := .UnassignableOperand,
              msg := "cannot assign to " ++ env.sprintfOp x }])
      | _ =>
        (st, some invalidType,
         [{ pos := x.expr.pos, code := .UnassignableOperand,
            msg := "cannot assign to " ++ env.sprintfOp x }])

/-- lhsVar checks a left-hand variable in an assignment and returns its
type: absent for the blank identifier, the invalid sentinel for an
illegal left-hand expression.  An identifier denoting a same-package
variable is evaluated without counting as a use of that variable.
Translated from Checker.lhsVar. -/
def lhsVar (env : Env) (st : St) (lhs : SExpr) : St × Option Ty × List Diag :=
  match unparen lhs with
  | .name nm p =>
    if nm = "_" then
      ({ st with defs := (SExpr.name nm p, none) :: st.defs }, none, [])
    else
      lhsVarEval env st lhs (lhsVarSnapshot env st nm)
  | _ => lhsVarEval env st lhs none

/-- operandTypes returns the list of types of the given operands. -/
def operandTypes (list : List Operand) : List (Option Ty) :=
  list.map (fun x => some x.typ)

/-- varTypes returns the list of declared types of the given variables,
read from the state store. -/
def varTypes (st : St) (list : List VarId) : List (Option Ty) :=
  list.map (fun vid => (st.vars vid).typ)

/-- typesSummary renders a parenthesized comma-separated summary of the
given types: absent and invalid types read unknown type, non-numeric
untyped constants drop the untyped qualifier, numeric untyped constants
read number, a trailing slice of a variadic list reads as an ellipsis
element type, and everything else is rendered normally.  Translated from
Checker.typesSummary. -/
def typesSummary (env : Env) (list : List (Option Ty)) (variadic : Bool) : String :=
  let n := list.length
  let res := list.enum.map (fun iv =>
    let i := iv.1
    let s : String :=
      match iv.2 with
      | none => "unknown type"
      | some t =>
        if t = invalidType then "unknown type"
        else if isUntyped t then
          if isUntypedNumeric t then "number"
          else ((basicNameOf t).replace "untyped " "")
        else if variadic && i = n - 1 then
          match t with
          | .slice e => "..." ++ env.sprintfTy e
          | _ => ""
        else ""
    if s = "" then env.sprintfTy ((iv.2).getD invalidType) else s)
  "(" ++ String.intercalate ", " res ++ ")"
where
  /-- The rendered name of an untyped basic type (every untyped type is a
  basic type). -/
  basicNameOf (t : Ty) : String :=
    match t with
    | .basic k => basicName k
    | _ => ""

/-- measure pluralizes the unit when the count is not one.  Translated
from the source helper. -/
def measure (x : Nat) (unit : String) : String :=
  let unit := if x ≠ 1 then unit ++ "s" else unit
  toString x ++ " " ++ unit

/-- assignError composes the non-return arity-mismatch diagnostic,
specializing the message when the single right-hand expression is a
(possibly parenthesized) call.  Translated from Checker.assignError.  The
source indexes the first right-hand expression; parsed input always has
one, and an empty list falls back to position zero here. -/
def assignError (env : Env) (rhs : List SExpr) (nvars nvals : Nat) : Diag :=
  let vars := measure nvars "variable"
  let vals := measure nvals "value"
  match rhs with
  | rhs0 :: rest =>
    match unparen rhs0, rest with
    | .call fn _ _, [] =>
      { pos := rhs0.pos, code := .WrongAssignCount,
        msg := "assignment mismatch: " ++ vars ++ " but " ++ env.sprintfExpr fn
          ++ " returns " ++ vals }
    | _, _ =>
      { pos := rhs0.pos, code := .WrongAssignCount,
        msg := "assignment mismatch: " ++ vars ++ " but " ++ vals }
  | [] =>
    { pos := 0, code := .WrongAssignCount,
      msg := "assignment mismatch: " ++ vars ++ " but " ++ vals }

/-- Invalidate the left-hand variables of a mismatched assignment: mark
every one used (to avoid declared-and-not-used follow-ups) and force any
still-unset declared type to the invalid sentinel.  Translated from the
invalidation loop of Checker.initVars. -/
def invalidateLhs (st : St) (lhs : List VarId) : St :=
  match lhs with
  | [] => st
  | vid :: rest =>
    let v := st.vars vid
    invalidateLhs
      (st.setVar vid
        { v with used := true,
                 typ := if v.typ = none then some invalidType else v.typ })
      rest

/-- The per-slot delegation loop of initVars: initialize each variable
from the corresponding operand in order, collecting diagnostics and
whether every slot succeeded.  (The caller guarantees equal lengths, so
the ragged fallbacks are unreachable.) -/
def initVarsLoop (env : Env) (context : String) :
    St → List VarId → List Operand → St × List Diag × Bool
  | st, l :: ls, r :: rs =>
    let a := initVar env st l r context
    let rest := initVarsLoop env context a.1 ls rs
    (rest.1, a.2.2 ++ rest.2.1, a.2.1.isSome && rest.2.2)
  | st, [], _ => (st, [], true)
  | st, _ :: _, [] => (st, [], true)

/-- The part of initVars that follows the evaluation of the right-hand
expression list: arity matching, the comma-ok form and per-slot
delegation. -/
def initVarsPost (env : Env) (st : St) (lhs : List VarId) (orig_rhs : List SExpr)
    (returnPos : Option Nat) (rhs : List Operand) (commaOk : Bool) :
    St × List Diag :=
  if lhs.length ≠ rhs.length then
    let st := invalidateLhs st lhs
    if rhs.any (fun x => x.mode == .invalid) then (st, [])
    else
      match returnPos with
      | some rpos =>
        let atq : Nat × String :=
          if h : lhs.length < rhs.length then
            ((rhs.get ⟨lhs.length, h⟩).expr.pos, "too many")
          else
            match rhs.getLast? with
            | some xl => (xl.expr.pos, "not enough")
            | none => (rpos, "not enough")
        (st, [{ pos := atq.1, code := .WrongResultCount,
                msg := atq.2 ++ " return values",
                extra := [(0, "have " ++ typesSummary env (operandTypes rhs) false),
                          (0, "want " ++ typesSummary env (varTypes st lhs) false)] }])
      | none => (st, [assignError env orig_rhs lhs.length rhs.length])
  else
    let context := if returnPos.isSome then "return statement" else "assignment"
    if commaOk then
      match lhs, rhs, orig_rhs with
      | l0 :: l1 :: _, r0 :: r1 :: _, o0 :: _ =>
        let a0 := initVar env st l0 r0 context
        let a1 := initVar env a0.1 l1 r1 context
        let st := { a1.1 with commaOkRec := (o0, a0.2.1, a1.2.1) :: a1.1.commaOkRec }
        (st, a0.2.2 ++ a1.2.2)
      | _, _, _ => (st, [])
    else
      let r := initVarsLoop env context st lhs rhs
      let st := r.1
      let st :=
        if r.2.2 then st
        else
          lhs.foldl (fun st l => st.setVar l { st.vars l with used := true }) st
      (st, r.2.1)

/-- initVars type-checks the initialization of the variables lhs from the
right-hand expressions, handling arity mismatches, the comma-ok form and
per-slot delegation.  When returnPos is present the assignment belongs to
a return statement at that position.  Translated from
Checker.initVars. -/
def initVars (env : Env) (st : St) (lhs : List VarId) (orig_rhs : List SExpr)
    (returnPos : Option Nat) : St × List Diag :=
  let e := env.exprList st orig_rhs (lhs.length == 2 && returnPos.isNone)
  initVarsPost env e.1 lhs orig_rhs returnPos e.2.1 e.2.2

/-- Rewriting initVars through a known evaluation of the right-hand
list. -/
theorem initVars_eq (env : Env) (st : St) (lhs : List VarId)
    (orig_rhs : List SExpr) (returnPos : Option Nat)
    (st1 : St) (rhs : List Operand) (cOk : Bool)
    (hev : env.exprList st orig_rhs (lhs.length == 2 && returnPos.isNone)
      = (st1, rhs, cOk)) :
    initVars env st lhs orig_rhs returnPos
      = initVarsPost env st1 lhs orig_rhs returnPos rhs cOk := by
  unfold initVars
  rw [hev]

/-- One step of the left-hand collection loop of shortVarDecl, for one
left-hand expression: classify it as non-name, repeated, a redeclaration
of a same-scope object, or a fresh variable.  Returns the updated state
and seen set, the slot for this position (absent when erroneous), the
fresh non-blank variable if one was allocated, whether an error occurred,
and the diagnostics. -/
def shortVarStep (env : Env) (st : St) (seen : List String) (e : SExpr) :
    St × List String × Option VarId × Option VarId × Bool × List Diag :=
  match e with
  | .name nm p =>
    if nm ≠ "_" ∧ nm ∈ seen then
      (st, seen, none, none, true,
       [{ pos := e.pos, code := .RepeatedDecl,
          msg := env.sprintfExpr e ++ " repeated on left side of :=" }])
    else
      let seen := if nm ≠ "_" then nm :: seen else seen
      match env.scopeLookup st nm with
      | some alt =>
        let st := { st with uses := (e, alt) :: st.uses }
        match alt with
        | .var w => (st, seen, some w, none, false, [])
        | .other _ =>
          (st, seen, none, none, true,
           [{ pos := e.pos, code := .UnassignableOperand,
              msg := "cannot assign to " ++ env.sprintfExpr e }])
      | none =>
        let a := st.newVar env.pkg nm
        let st := { a.1 with defs := (.name nm p, some a.2) :: a.1.defs }
        (st, seen, some a.2, if nm ≠ "_" then some a.2 else none, false, [])
  | _ =>
    (env.use st [e], seen, none, none, true,
     [{ pos := e.pos, code := .BadDecl,
        msg := "non-name " ++ env.sprintfExpr e ++ " on left side of :=" }])

/-- The left-hand collection loop of shortVarDecl over the whole
left-hand list: threads state and the seen set through shortVarStep and
concatenates slots, fresh variables, error flags and diagnostics. -/
def shortVarCollect (env : Env) (st : St) (seen : List String) :
    List SExpr → St × List (Option VarId) × List VarId × Bool × List Diag
  | [] => (st, [], [], false, [])
  | e :: rest =>
    let a := shortVarStep env st seen e
    let b := shortVarCollect env a.1 a.2.1 rest
    (b.1, a.2.2.1 :: b.2.1,
     (match a.2.2.2.1 with | some v => v :: b.2.2.1 | none => b.2.2.1),
     a.2.2.2.2.1 || b.2.2.2.1,
     a.2.2.2.2.2 ++ b.2.2.2.2)

/-- The dummy-fill loop of shortVarDecl: give every erroneous left-hand
position a throwaway blank variable so the downstream arity logic sees a
uniform list. -/
def fillDummies (env : Env) (st : St) :
    List (Option VarId) → List SExpr → St × List VarId
  | some v :: rest, _ :: es =>
    let b := fillDummies env st rest es
    (b.1, v :: b.2)
  | none :: rest, _ :: es =>
    let a := st.newVar env.pkg "_"
    let b := fillDummies env a.1 rest es
    (b.1, a.2 :: b.2)
  | some v :: rest, [] =>
    let b := fillDummies env st rest []
    (b.1, v :: b.2)
  | none :: rest, [] =>
    let a := st.newVar env.pkg "_"
    let b := fillDummies env a.1 rest []
    (b.1, a.2 :: b.2)
  | [], _ => (st, [])

/-- The soft diagnostic of a short declaration that introduces no new
variable. -/
def diagNoNewVar (pos : Nat) : Diag :=
  { pos := pos, code := .NoNewVar,
    msg := "no new variables on left side of :=", soft := true }

/-- shortVarDecl type-checks a short variable declaration at the given
position: collect the left-hand variables (reusing same-scope variables,
allocating fresh ones, reporting non-names and repeats), fill erroneous
slots with throwaway blanks, delegate to initVars, drain the delayed
actions queued while checking the right-hand side, report the soft
no-new-variables error when nothing was declared and no earlier left-hand
error occurred, and finally insert the fresh variables into the scope
with visibility starting after the last right-hand expression.
Translated from Checker.shortVarDecl.  The source reads the end position
of the last right-hand expression; parsed input always has one, and an
empty list falls back to the statement position here. -/
def shortVarDecl (env : Env) (st : St) (pos : Nat) (lhs rhs : List SExpr) :
    St × List Diag :=
  let top := st.delayedLen
  let c := shortVarCollect env st [] lhs
  let st := c.1
  let lhsSlots := c.2.1
  let newVars := c.2.2.1
  let hasErr := c.2.2.2.1
  let cdiags := c.2.2.2.2
  let f := fillDummies env st lhsSlots lhs
  let st := f.1
  let lhsVars := f.2
  let r := initVars env st lhsVars rhs none
  let st := env.processDelayed r.1 top
  if newVars.isEmpty && !hasErr then
    (st, cdiags ++ r.2 ++ [diagNoNewVar pos])
  else
    let scopePos :=
      match rhs.getLast? with
      | some e => env.endPos e
      | none => pos
    let st := newVars.foldl (fun st v => env.declare st v scopePos) st
    (st, cdiags ++ r.2)

/-!  Fixtures: a concrete environment and state for the closed instances
of the theorems below. -/

/-- A concrete environment whose implicit conversion always succeeds,
adopting the requested target type, and whose assignability oracle always
answers yes. -/
def testEnv : Env where
  pkg := 0
  implicitTypeAndValue := fun _ t => (t, none, none)
  assignableTo := fun _ _ => (true, "", .other 0)
  sprintfOp := fun _ => "x"
  sprintfTy := fun _ => "T"
  sprintfExpr := fun _ => "e"
  expr := fun st _ => (st, ⟨.value, .basic .int, none, .other 0 0⟩)
  exprList := fun st _ _ => (st, [], false)
  use := fun st _ => st
  lookup := fun _ _ => none
  scopeLookup := fun _ _ => none
  processDelayed := fun st _ => st
  declare := fun st _ _ => st
  endPos := fun e => e.pos

/-- An initial state with an empty variable store. -/
def st0 : St where
  vars := fun _ => ⟨"", 0, none, false⟩
  nextVar := 0
  delayedLen := 0
  exprVals := []
  exprTypes := []
  commaOkRec := []
  uses := []
  defs := []

/-!  Claim C1.  -/

/-- The conversion-target rule exactly as the specification words it: if
the given target type is absent, or the target type is an interface that
is not a type parameter, the operand default type is the conversion
target; otherwise the given target type itself is. -/
def convTargetSpec (T : Option Ty) (xtyp : Ty) : Ty :=
  match T with
  | none => defaultType xtyp
  | some t => if isInterface t && !isTypeParam t then defaultType xtyp else t

/-- A legal assignment operand mode is never the invalid mode. -/
theorem assignableMode_ne_invalid {m : Mode} (h : assignableMode m = true) :
    m ≠ .invalid := by
  intro he
  subst he
  simp [assignableMode] at h

/-- C1: in assignment, for every operand whose type is an
untyped-constant kind and which is not the nil literal and whose mode is
legal, the conversion step runs against exactly the target the
specification describes: the operand default type when the given target
is absent or is a non-type-parameter interface, and the given target type
itself otherwise. -/
theorem assignment_untyped_conversion_target (env : Env) (st : St) (x : Operand)
    (T : Option Ty) (context : String)
    (hmode : assignableMode (singleValue x).mode = true)
    (hU : isUntyped (singleValue x).typ = true)
    (hN : (singleValue x).isNil = false) :
    assignment env st x T context
      = assignmentConv env st (singleValue x) T context
          (convTargetSpec T (singleValue x).typ) := by
  have hinv := assignableMode_ne_invalid hmode
  unfold assignment
  rw [if_neg hinv, if_pos hmode, if_pos hU, if_neg (by rw [hN]; exact Bool.false_ne_true)]
  cases T with
  | none => rfl
  | some t =>
    dsimp only
    have hcs : convTargetSpec (some t) (singleValue x).typ
        = if isNonTypeParamInterface t then defaultType (singleValue x).typ else t := by
      cases hb : isTypeParam t <;> cases hc : isInterface t <;>
        simp [convTargetSpec, isNonTypeParamInterface, hb, hc]
    rw [hcs]
    by_cases hi : isNonTypeParamInterface t = true
    · rw [if_pos hi, if_pos hi]
    · rw [if_neg hi, if_neg hi]

/-- A concrete untyped integer constant operand. -/
def c1x : Operand := ⟨.constant_, .basic .untypedInt, some (.int 1), .name "c" 3⟩

/-- Closed instance of the C1 theorem at a concrete untyped integer
constant being assigned to int. -/
theorem assignment_untyped_conversion_target_witness :
    assignment testEnv st0 c1x (some (.basic .int)) "assignment"
      = assignmentConv testEnv st0 (singleValue c1x) (some (.basic .int)) "assignment"
          (convTargetSpec (some (.basic .int)) (singleValue c1x).typ) :=
  assignment_untyped_conversion_target testEnv st0 c1x (some (.basic .int))
    "assignment" (by decide) (by decide) (by decide)

/-!  Claim C3.  -/

/-- A concrete operand in the no-value mode, one of the modes outside the
legal assignment set. -/
def c3x : Operand := ⟨.novalue, .basic .int, none, .name "f" 7⟩

/-- C3: at an operand whose mode is outside the legal assignment modes
(here the no-value mode), assignment reports the generic cannot-assign
incompatibility and stops, but — contradicting the contract stated in the
source doc comment, which says the mode is set to invalid whenever the
assignment failed — it leaves the operand mode unchanged. -/
theorem assignment_default_mode_not_invalidated :
    (assignment testEnv st0 c3x (some (.basic .int)) "assignment").2.1.mode = .novalue
    ∧ (assignment testEnv st0 c3x (some (.basic .int)) "assignment").2.2.map Diag.code
        = [.IncompatibleAssign] := by
  exact ⟨rfl, rfl⟩

/-!  Claim C4.  -/

/-- A generic signature type is never untyped: the untyped kinds are
basic types, whose underlying type is not a signature. -/
theorem genericSig_not_untyped {t : Ty} (h : genericSig t = true) :
    isUntyped t = false := by
  cases t <;> first
    | rfl
    | (exfalso; simp [genericSig, under] at h)

/-- C4: for every legal-mode operand whose type has a generic signature
underneath (one or more own type parameters), assignment emits the
uninstantiated-generic-function diagnostic without invalidating the
operand, and the assignability check still runs when a target type is
present: the outcome is exactly the oracle answer, with the advisory
diagnostic prepended. -/
theorem assignment_generic_function_advisory (env : Env) (st : St) (x : Operand)
    (T : Option Ty) (context : String)
    (hmode : assignableMode (singleValue x).mode = true)
    (hgen : genericSig (singleValue x).typ = true) :
    assignment env st x T context =
      match T with
      | none => (st, singleValue x, [diagGenericFun env (singleValue x) context])
      | some t =>
        let r := env.assignableTo (singleValue x) t
        if r.1 then (st, singleValue x, [diagGenericFun env (singleValue x) context])
        else (st, { singleValue x with mode := .invalid },
              [diagGenericFun env (singleValue x) context,
               diagNotAssignable env (singleValue x) t context r.2.1 r.2.2]) := by
  have hinv := assignableMode_ne_invalid hmode
  have hu := genericSig_not_untyped hgen
  unfold assignment assignmentTail
  rw [if_neg hinv, if_pos hmode,
      if_neg (by rw [hu]; exact Bool.false_ne_true), if_pos hgen]
  cases T with
  | none => rfl
  | some t => rfl

/-- A concrete operand holding an uninstantiated generic function
value. -/
def c4x : Operand := ⟨.value, .signature 1 0, none, .name "g" 9⟩

/-- Closed instance of the C4 theorem at a concrete generic function
operand assigned to int under the test environment (whose oracle answers
yes): only the advisory diagnostic is emitted and the mode stays
valid. -/
theorem assignment_generic_function_advisory_witness :
    assignment testEnv st0 c4x (some (.basic .int)) "assignment" =
      match some (.basic .int : Ty) with
      | none => (st0, singleValue c4x, [diagGenericFun testEnv (singleValue c4x) "assignment"])
      | some t =>
        let r := testEnv.assignableTo (singleValue c4x) t
        if r.1 then (st0, singleValue c4x, [diagGenericFun testEnv (singleValue c4x) "assignment"])
        else (st0, { singleValue c4x with mode := .invalid },
              [diagGenericFun testEnv (singleValue c4x) "assignment",
               diagNotAssignable testEnv (singleValue c4x) t "assignment" r.2.1 r.2.2]) :=
  assignment_generic_function_advisory testEnv st0 c4x (some (.basic .int))
    "assignment" (by decide) (by decide)

/-!  Claim C2.  -/

/-- An environment whose implicit conversion always fails with a numeric
overflow. -/
def cexEnvC2 : Env :=
  { testEnv with implicitTypeAndValue := fun _ t => (t, none, some .NumericOverflow) }

/-- A concrete untyped integer constant operand standing for a literal
whose value does not fit its default type. -/
def c2x : Operand := ⟨.constant_, .basic .untypedInt, some (.int 0), .name "c" 1⟩

/-- Counterexample to C2 as stated: an operand in a legal assignable mode
that is not the nil literal, assigned with an absent target type, does
not always succeed — when the conversion of the untyped constant to its
default type fails (numeric overflow), the operand mode becomes
invalid. -/
theorem assignment_discard_can_fail :
    assignableMode c2x.mode = true ∧ c2x.isNil = false
    ∧ (assignment cexEnvC2 st0 c2x none "assignment").2.1.mode = .invalid := by
  exact ⟨rfl, rfl, rfl⟩

/-- With an absent target type the tail of assignment returns the operand
unchanged. -/
theorem assignmentTail_discard_operand (env : Env) (st : St) (x : Operand)
    (context : String) :
    (assignmentTail env st x none context).2.1 = x := rfl

/-- With an absent target type, a successful implicit conversion leaves
the operand mode unchanged. -/
theorem assignmentConv_discard_mode (env : Env) (st : St) (x : Operand)
    (context : String) (target : Ty)
    (h : (env.implicitTypeAndValue x target).2.2 = none) :
    (assignmentConv env st x none context target).2.1.mode = x.mode := by
  unfold assignmentConv
  rcases hr : env.implicitTypeAndValue x target with ⟨nt, vl, cd⟩
  have hcd : cd = none := by rw [hr] at h; exact h
  subst hcd
  dsimp only
  cases vl with
  | none =>
    dsimp only
    by_cases hnt : nt ≠ x.typ
    · rw [if_pos hnt]; rfl
    · rw [if_neg hnt]; rfl
  | some v =>
    dsimp only
    by_cases hnt : nt ≠ x.typ
    · rw [if_pos hnt]; rfl
    · rw [if_neg hnt]; rfl

/-- C2 amended: with an absent target type, a legal-mode operand that is
not the nil literal succeeds provided it is typed or its untyped
conversion to its default type succeeds, and the outcome never consults
the assignability oracle; the nil literal instead draws the untyped-nil
error and its mode becomes invalid. -/
theorem assignment_discard_target (env : Env) (st : St) (x : Operand) (context : String)
    (hmode : assignableMode (singleValue x).mode = true) :
    ((singleValue x).isNil = false →
      (isUntyped (singleValue x).typ = true →
        (env.implicitTypeAndValue (singleValue x)
          (defaultType (singleValue x).typ)).2.2 = none) →
      (assignment env st x none context).2.1.mode ≠ .invalid)
    ∧ (∀ f, assignment { env with assignableTo := f } st x none context
        = assignment env st x none context)
    ∧ ((singleValue x).isNil = true → isUntyped (singleValue x).typ = true →
        (assignment env st x none context).2.1.mode = .invalid
        ∧ ∃ d ∈ (assignment env st x none context).2.2, d.code = .UntypedNilUse) := by
  have hinv := assignableMode_ne_invalid hmode
  refine ⟨?_, fun f => rfl, ?_⟩
  · intro hnil hconv
    unfold assignment
    rw [if_neg hinv, if_pos hmode]
    by_cases hU : isUntyped (singleValue x).typ = true
    · rw [if_pos hU, if_neg (by rw [hnil]; exact Bool.false_ne_true)]
      dsimp only
      rw [assignmentConv_discard_mode env st (singleValue x) context
          (defaultType (singleValue x).typ) (hconv hU)]
      exact hinv
    · rw [if_neg hU]
      rw [show (assignmentTail env st (singleValue x) none context).2.1
            = singleValue x from rfl]
      exact hinv
  · intro hnil hU
    unfold assignment
    rw [if_neg hinv, if_pos hmode, if_pos hU, if_pos hnil]
    exact ⟨rfl, ⟨diagUntypedNilUse (singleValue x) context, by simp, rfl⟩⟩

/-- A concrete untyped nil literal operand. -/
def c2nil : Operand := ⟨.nilvalue, .basic .untypedNil, none, .name "nil" 2⟩

/-- A concrete typed value operand. -/
def c2ok : Operand := ⟨.value, .basic .int, none, .name "v" 4⟩

/-- Closed instance of the amended C2 theorem: a typed value succeeds at
a discard target independently of the assignability oracle, and the nil
literal fails with the untyped-nil error. -/
theorem assignment_discard_target_witness :
    ((assignment testEnv st0 c2ok none "assignment").2.1.mode ≠ .invalid)
    ∧ ((assignment testEnv st0 c2nil none "assignment").2.1.mode = .invalid
        ∧ ∃ d ∈ (assignment testEnv st0 c2nil none "assignment").2.2,
            d.code = .UntypedNilUse) :=
  ⟨((assignment_discard_target testEnv st0 c2ok "assignment" (by decide)).1
      (by decide) (fun h => by exact absurd h (by decide))),
   ((assignment_discard_target testEnv st0 c2nil "assignment" (by decide)).2.2
      (by decide) (by decide))⟩

/-!  Claim C5.  -/

/-- Reading back the variable just written. -/
theorem St.setVar_self (st : St) (vid : VarId) (vs : VarState) :
    (st.setVar vid vs).vars vid = vs := by
  simp [St.setVar]

/-- Writing one variable leaves every other variable unchanged. -/
theorem St.setVar_other (st : St) (vid u : VarId) (vs : VarState) (h : u ≠ vid) :
    (st.setVar vid vs).vars u = st.vars u := by
  simp [St.setVar, h]

/-- Counterexample to C5 as stated: the untyped-nil inference path of
initVar is a failure path (the result is absent and the declared type is
forced to invalid), yet the used flag of the variable is left at its old
value false rather than being set to true. -/
theorem initVar_nil_path_used_unchanged :
    (initVar testEnv st0 0 c2nil "assignment").2.1 = none
    ∧ ((initVar testEnv st0 0 c2nil "assignment").1.vars 0).typ = some invalidType
    ∧ ((initVar testEnv st0 0 c2nil "assignment").1.vars 0).used = false := by
  exact ⟨rfl, rfl, rfl⟩

/-- The declared type initVar resolves for a variable without one: the
operand type, defaulted when untyped; a variable with a declared type
keeps it. -/
def initVarTargetTy (vt : Option Ty) (xt : Ty) : Ty :=
  match vt with
  | some t => t
  | none => if isUntyped xt then defaultType xt else xt

/-- The state after initVar stores the inferred declared type (no change
when the variable already had one). -/
def initVarSt1 (st : St) (vid : VarId) (x : Operand) : St :=
  match (st.vars vid).typ with
  | some _ => st
  | none =>
    st.setVar vid
      { st.vars vid with typ := some (initVarTargetTy (st.vars vid).typ x.typ) }

/-- C5 amended: on the early failure path of initVar (invalid operand or
invalid types) the variable is marked used, the unset declared type is
forced to invalid and the result is absent; on the untyped-nil inference
path the declared type is forced to invalid and the result is absent but
the used flag keeps its old value; on the delegation path, failure of the
delegated assignment marks the variable used and returns absent, and
success returns the possibly converted operand type. -/
theorem initVar_paths (env : Env) (st : St) (vid : VarId) (x : Operand)
    (context : String) :
    ((x.mode = .invalid ∨ x.typ = invalidType ∨ (st.vars vid).typ = some invalidType) →
      (initVar env st vid x context).2.1 = none
      ∧ ((initVar env st vid x context).1.vars vid).used = true
      ∧ ((initVar env st vid x context).1.vars vid).typ
          = (if (st.vars vid).typ = none then some invalidType else (st.vars vid).typ))
    ∧ (¬(x.mode = .invalid ∨ x.typ = invalidType ∨ (st.vars vid).typ = some invalidType) →
       (st.vars vid).typ = none → x.typ = .basic .untypedNil →
      (initVar env st vid x context).2.1 = none
      ∧ ((initVar env st vid x context).1.vars vid).used = (st.vars vid).used
      ∧ ((initVar env st vid x context).1.vars vid).typ = some invalidType
      ∧ (initVar env st vid x context).2.2 = [diagUntypedNilUse x context])
    ∧ (¬(x.mode = .invalid ∨ x.typ = invalidType ∨ (st.vars vid).typ = some invalidType) →
       ¬((st.vars vid).typ = none ∧ x.typ = .basic .untypedNil) →
      ((assignment env (initVarSt1 st vid x) x
          (some (initVarTargetTy (st.vars vid).typ x.typ)) context).2.1.mode = .invalid →
        (initVar env st vid x context).2.1 = none
        ∧ ((initVar env st vid x context).1.vars vid).used = true)
      ∧ ((assignment env (initVarSt1 st vid x) x
          (some (initVarTargetTy (st.vars vid).typ x.typ)) context).2.1.mode ≠ .invalid →
        (initVar env st vid x context).2.1
          = some (assignment env (initVarSt1 st vid x) x
              (some (initVarTargetTy (st.vars vid).typ x.typ)) context).2.1.typ)) := by
  refine ⟨?_, ?_, ?_⟩
  · intro hG
    unfold initVar
    rw [if_pos hG]
    by_cases hv : (st.vars vid).typ = none
    · rw [if_pos hv]
      refine ⟨rfl, ?_, ?_⟩ <;> simp [hv, St.setVar_self]
    · rw [if_neg hv]
      refine ⟨rfl, ?_, ?_⟩ <;> simp [hv, St.setVar_self]
  · intro hG hv hx
    unfold initVar
    rw [if_neg hG, hv]
    dsimp only
    rw [if_pos (show isUntyped x.typ = true by rw [hx]; rfl), if_pos hx]
    exact ⟨rfl, by rw [St.setVar_self], by rw [St.setVar_self], rfl⟩
  · intro hG hn
    have hred : initVar env st vid x context
        = initVarAssign env (initVarSt1 st vid x) vid x
            (initVarTargetTy (st.vars vid).typ x.typ) context := by
      unfold initVar initVarSt1 initVarTargetTy
      rw [if_neg hG]
      cases hv : (st.vars vid).typ with
      | some t => rfl
      | none =>
        dsimp only
        have hx : x.typ ≠ .basic .untypedNil := fun hc => hn ⟨hv, hc⟩
        by_cases hU : isUntyped x.typ = true
        · rw [if_pos hU, if_pos hU, if_neg hx]
        · rw [if_neg hU, if_neg hU]
    rw [hred]
    unfold initVarAssign
    dsimp only
    constructor
    · intro hfail
      rw [if_pos hfail]
      exact ⟨rfl, by rw [St.setVar_self]⟩
    · intro hok
      rw [if_neg hok]

/-- A concrete already-invalid operand. -/
def c5xInvalid : Operand := ⟨.invalid, .basic .int, none, .name "b" 6⟩

/-- Closed instance of the amended C5 theorem at the early failure path
(invalid operand): the variable is marked used, its unset type is forced
to invalid and the result is absent. -/
theorem initVar_paths_witness :
    (initVar testEnv st0 0 c5xInvalid "assignment").2.1 = none
    ∧ ((initVar testEnv st0 0 c5xInvalid "assignment").1.vars 0).used = true
    ∧ ((initVar testEnv st0 0 c5xInvalid "assignment").1.vars 0).typ
        = (if (st0.vars 0).typ = none then some invalidType else (st0.vars 0).typ) :=
  (initVar_paths testEnv st0 0 c5xInvalid "assignment").1 (Or.inl rfl)

/-!  Claim C10.  -/

/-- C10: initConst writes the constant entity value only when every check
succeeds.  On the early failure path (invalid operand or invalid types)
and on the not-a-constant path the entity keeps its value, with at most
an unset type forced to invalid; on the delegation path a failing
assignment leaves the value untouched, and a successful one copies the
possibly re-expressed operand value into the entity. -/
theorem initConst_val_write (env : Env) (st : St) (lhs : ConstE) (x : Operand) :
    ((x.mode = .invalid ∨ x.typ = invalidType ∨ lhs.typ = some invalidType) →
      (initConst env st lhs x).2.1
          = (if lhs.typ = none then { lhs with typ := some invalidType } else lhs)
      ∧ (initConst env st lhs x).2.1.val = lhs.val
      ∧ (initConst env st lhs x).2.2 = [])
    ∧ (¬(x.mode = .invalid ∨ x.typ = invalidType ∨ lhs.typ = some invalidType) →
       x.mode ≠ .constant_ →
      (initConst env st lhs x).2.1
          = (if lhs.typ = none then { lhs with typ := some invalidType } else lhs)
      ∧ (initConst env st lhs x).2.1.val = lhs.val)
    ∧ (¬(x.mode = .invalid ∨ x.typ = invalidType ∨ lhs.typ = some invalidType) →
       x.mode = .constant_ →
      ((assignment env st x
          (if lhs.typ = none then { lhs with typ := some x.typ } else lhs).typ
          "constant declaration").2.1.mode = .invalid →
        (initConst env st lhs x).2.1
            = (if lhs.typ = none then { lhs with typ := some x.typ } else lhs)
        ∧ (initConst env st lhs x).2.1.val = lhs.val)
      ∧ ((assignment env st x
          (if lhs.typ = none then { lhs with typ := some x.typ } else lhs).typ
          "constant declaration").2.1.mode ≠ .invalid →
        (initConst env st lhs x).2.1.val
            = (assignment env st x
                (if lhs.typ = none then { lhs with typ := some x.typ } else lhs).typ
                "constant declaration").2.1.val)) := by
  refine ⟨?_, ?_, ?_⟩
  · intro hG
    unfold initConst
    rw [if_pos hG]
    refine ⟨rfl, ?_, rfl⟩
    by_cases hv : lhs.typ = none <;> simp [hv]
  · intro hG hm
    unfold initConst
    rw [if_neg hG, if_pos hm]
    refine ⟨rfl, ?_⟩
    by_cases hv : lhs.typ = none <;> simp [hv]
  · intro hG hm
    unfold initConst
    rw [if_neg hG, if_neg (not_not_intro hm)]
    dsimp only
    constructor
    · intro hfail
      rw [if_pos hfail]
      refine ⟨rfl, ?_⟩
      by_cases hv : lhs.typ = none <;> simp [hv]
    · intro hok
      rw [if_neg hok]

/-- A concrete non-constant operand for the not-a-constant path of
initConst. -/
def c10x : Operand := ⟨.value, .basic .int, none, .name "v" 8⟩

/-- A concrete constant entity with a declared type and a recorded
value. -/
def c10const : ConstE := ⟨some (.basic .int), some (.int 7)⟩

/-- Closed instance of the C10 theorem at the not-a-constant path: the
entity value survives the failure. -/
theorem initConst_val_write_witness :
    (initConst testEnv st0 c10const c10x).2.1
        = (if c10const.typ = none then { c10const with typ := some invalidType }
           else c10const)
    ∧ (initConst testEnv st0 c10const c10x).2.1.val = c10const.val :=
  (initConst_val_write testEnv st0 c10const c10x).2.1
    (by decide)
    (by decide)

/-!  Claim C8.  -/

/-- Writing a variable touches no other field of the state. -/
theorem St.setVar_fields (st : St) (vid : VarId) (vs : VarState) :
    (st.setVar vid vs).nextVar = st.nextVar
    ∧ (st.setVar vid vs).delayedLen = st.delayedLen
    ∧ (st.setVar vid vs).exprVals = st.exprVals
    ∧ (st.setVar vid vs).exprTypes = st.exprTypes
    ∧ (st.setVar vid vs).commaOkRec = st.commaOkRec
    ∧ (st.setVar vid vs).uses = st.uses
    ∧ (st.setVar vid vs).defs = st.defs :=
  ⟨rfl, rfl, rfl, rfl, rfl, rfl, rfl⟩

/-- C8: when the left-hand expression is a (possibly parenthesized)
non-blank identifier that denotes an existing same-package variable, and
the evaluator records that expression as the operand source, lhsVar
leaves the checker state exactly as the evaluation of the identifier left
it, except that the used flag of that variable is restored to the value
it had before the resolution. -/
theorem lhsVar_used_restored (env : Env) (st : St) (lhs : SExpr)
    (nm : String) (p : Nat) (w : VarId)
    (hup : unparen lhs = .name nm p)
    (hnm : ¬nm = "_")
    (hlk : env.lookup st nm = some (.var w))
    (hpkg : (st.vars w).pkg = env.pkg)
    (hxe : (env.expr st lhs).2.expr = lhs) :
    (lhsVar env st lhs).1
        = ((env.expr st lhs).1).setVar w
            { ((env.expr st lhs).1).vars w with used := (st.vars w).used }
    ∧ ((lhsVar env st lhs).1.vars w).used = (st.vars w).used
    ∧ (∀ u, u ≠ w → (lhsVar env st lhs).1.vars u = ((env.expr st lhs).1).vars u) := by
  have hstate : (lhsVar env st lhs).1
      = ((env.expr st lhs).1).setVar w
          { ((env.expr st lhs).1).vars w with used := (st.vars w).used } := by
    unfold lhsVar
    rw [hup]
    dsimp only
    rw [if_neg hnm]
    unfold lhsVarSnapshot
    rw [hlk]
    dsimp only
    rw [if_pos hpkg]
    unfold lhsVarEval
    rcases hre : env.expr st lhs with ⟨st2, x⟩
    rw [hre] at hxe
    dsimp only at hxe ⊢
    rcases x with ⟨xm, xt, xv, xe⟩
    dsimp only at hxe
    subst hxe
    by_cases h1 : xm = .invalid ∨ xt = invalidType
    · rw [if_pos h1]
    · rw [if_neg h1]
      cases xm <;> dsimp only <;> first
        | rfl
        | (cases xe <;> first
            | rfl
            | exact absurd hup (by simp [unparen]))
  refine ⟨hstate, ?_, ?_⟩
  · rw [hstate, St.setVar_self]
  · intro u hu
    rw [hstate, St.setVar_other _ _ _ _ hu]

/-- An environment for the closed C8 instance: looking up the identifier
x finds variable zero, and evaluating any expression marks that variable
used and yields a variable-mode operand recording the expression. -/
def c8Env : Env :=
  { testEnv with
    lookup := fun _ nmq => if nmq = "x" then some (.var 0) else none,
    expr := fun st e =>
      (st.setVar 0 { st.vars 0 with used := true },
       ⟨.variable_, .basic .int, none, e⟩) }

/-- Closed instance of the C8 theorem: resolving the identifier x as an
assignment target restores the used flag of variable zero to its prior
value false, keeping the rest of the evaluation effects. -/
theorem lhsVar_used_restored_witness :
    (lhsVar c8Env st0 (.name "x" 5)).1
        = ((c8Env.expr st0 (.name "x" 5)).1).setVar 0
            { ((c8Env.expr st0 (.name "x" 5)).1).vars 0 with used := (st0.vars 0).used }
    ∧ ((lhsVar c8Env st0 (.name "x" 5)).1.vars 0).used = (st0.vars 0).used
    ∧ (∀ u, u ≠ 0 →
        (lhsVar c8Env st0 (.name "x" 5)).1.vars u
          = ((c8Env.expr st0 (.name "x" 5)).1).vars u) :=
  lhsVar_used_restored c8Env st0 (.name "x" 5) "x" 5 0 rfl (by decide) rfl rfl rfl

/-!  Claims C6 and C7.  -/

/-- The invalidated form of a variable: marked used, with an unset
declared type forced to the invalid sentinel. -/
def invalVS (v : VarState) : VarState :=
  { v with used := true, typ := if v.typ = none then some invalidType else v.typ }

/-- Invalidating twice is the same as invalidating once. -/
theorem invalVS_idem (v : VarState) : invalVS (invalVS v) = invalVS v := by
  by_cases h : v.typ = none <;> simp [invalVS, h]

/-- Pointwise description of invalidateLhs: a listed variable is
invalidated (relative to its entry state), an unlisted one is
untouched. -/
theorem invalidateLhs_vars (lhs : List VarId) (st : St) (vid : VarId) :
    (invalidateLhs st lhs).vars vid
      = if vid ∈ lhs then invalVS (st.vars vid) else st.vars vid := by
  induction lhs generalizing st with
  | nil => simp [invalidateLhs]
  | cons a as ih =>
    simp only [invalidateLhs]
    rw [ih]
    by_cases hm : vid ∈ as
    · rw [if_pos hm, if_pos (List.mem_cons.mpr (Or.inr hm))]
      by_cases he : vid = a
      · subst he
        rw [St.setVar_self]
        exact invalVS_idem _
      · rw [St.setVar_other _ _ _ _ he]
    · rw [if_neg hm]
      by_cases he : vid = a
      · subst he
        rw [St.setVar_self, if_pos (List.mem_cons_self _ _)]
        rfl
      · rw [St.setVar_other _ _ _ _ he,
            if_neg (by simp [List.mem_cons, he, hm])]

/-- Every arity-mismatch diagnostic of the plain-assignment form carries
the wrong-assignment-count code. -/
theorem assignError_code (env : Env) (rhs : List SExpr) (nvars nvals : Nat) :
    (assignError env rhs nvars nvals).code = .WrongAssignCount := by
  unfold assignError
  split
  · split <;> rfl
  · rfl

/-- On the arity-mismatch path the state initVars leaves behind is the
invalidated left-hand list. -/
theorem initVars_mismatch_state (env : Env) (st : St) (lhs : List VarId)
    (orig_rhs : List SExpr) (returnPos : Option Nat)
    (st1 : St) (rhs : List Operand) (cOk : Bool)
    (hev : env.exprList st orig_rhs (lhs.length == 2 && returnPos.isNone)
      = (st1, rhs, cOk))
    (hlen : lhs.length ≠ rhs.length) :
    (initVars env st lhs orig_rhs returnPos).1 = invalidateLhs st1 lhs := by
  rw [initVars_eq env st lhs orig_rhs returnPos st1 rhs cOk hev]
  unfold initVarsPost
  rw [if_pos hlen]
  by_cases hany : (rhs.any fun x => x.mode == Mode.invalid) = true
  · rw [if_pos hany]
  · rw [if_neg hany]
    cases returnPos <;> rfl

/-- C6: on an arity mismatch, initVars marks every target used and forces
every unset target type to invalid; it emits no diagnostic at all when an
already-evaluated operand carries the invalid mode, and exactly one arity
diagnostic otherwise (with the result-count code in a return statement
and the assignment-count code otherwise, never per-slot diagnostics). -/
theorem initVars_arity_mismatch (env : Env) (st : St) (lhs : List VarId)
    (orig_rhs : List SExpr) (returnPos : Option Nat)
    (st1 : St) (rhs : List Operand) (cOk : Bool)
    (hev : env.exprList st orig_rhs (lhs.length == 2 && returnPos.isNone)
      = (st1, rhs, cOk))
    (hlen : lhs.length ≠ rhs.length) :
    (∀ vid ∈ lhs,
      ((initVars env st lhs orig_rhs returnPos).1.vars vid).used = true
      ∧ ((initVars env st lhs orig_rhs returnPos).1.vars vid).typ
          = (if (st1.vars vid).typ = none then some invalidType
             else (st1.vars vid).typ))
    ∧ ((∃ x ∈ rhs, x.mode = .invalid) →
        (initVars env st lhs orig_rhs returnPos).2 = [])
    ∧ ((∀ x ∈ rhs, x.mode ≠ .invalid) →
        ∃ d, (initVars env st lhs orig_rhs returnPos).2 = [d]
          ∧ d.code = (if returnPos.isSome then ErrCode.WrongResultCount
                      else ErrCode.WrongAssignCount)) := by
  have hstate := initVars_mismatch_state env st lhs orig_rhs returnPos st1 rhs cOk hev hlen
  refine ⟨?_, ?_, ?_⟩
  · intro vid hm
    rw [hstate, invalidateLhs_vars, if_pos hm]
    exact ⟨rfl, rfl⟩
  · intro hinv
    have hany : (rhs.any fun x => x.mode == Mode.invalid) = true := by
      rcases hinv with ⟨x, hx, hxm⟩
      exact List.any_eq_true.mpr ⟨x, hx, by simp [hxm]⟩
    rw [initVars_eq env st lhs orig_rhs returnPos st1 rhs cOk hev]
    unfold initVarsPost
    rw [if_pos hlen, if_pos hany]
  · intro hnone
    have hany : ¬((rhs.any fun x => x.mode == Mode.invalid) = true) := by
      intro hc
      rcases List.any_eq_true.mp hc with ⟨x, hx, hxm⟩
      exact hnone x hx (by simpa using hxm)
    rw [initVars_eq env st lhs orig_rhs returnPos st1 rhs cOk hev]
    unfold initVarsPost
    rw [if_pos hlen, if_neg hany]
    cases returnPos with
    | none => exact ⟨_, rfl, assignError_code env orig_rhs lhs.length rhs.length⟩
    | some rpos => exact ⟨_, rfl, rfl⟩

/-- An environment whose expression-list evaluation yields two concrete
valid operands. -/
def mEnv : Env :=
  { testEnv with
    exprList := fun st _ _ =>
      (st, [⟨.value, .basic .int, none, .name "a" 11⟩,
            ⟨.value, .basic .int, none, .name "b" 13⟩], false) }

/-- Closed instance of the C6 theorem: one target against two values
marks the target used, forces its unset type to invalid, and draws
exactly one assignment-count diagnostic. -/
theorem initVars_arity_mismatch_witness :
    (((initVars mEnv st0 [0] [.name "a" 11, .name "b" 13] none).1.vars 0).used = true
      ∧ ((initVars mEnv st0 [0] [.name "a" 11, .name "b" 13] none).1.vars 0).typ
          = (if (st0.vars 0).typ = none then some invalidType else (st0.vars 0).typ))
    ∧ ∃ d, (initVars mEnv st0 [0] [.name "a" 11, .name "b" 13] none).2 = [d]
        ∧ d.code = (if (none : Option Nat).isSome then ErrCode.WrongResultCount
                    else ErrCode.WrongAssignCount) :=
  have h := initVars_arity_mismatch mEnv st0 [0] [.name "a" 11, .name "b" 13] none
    st0 [⟨.value, .basic .int, none, .name "a" 11⟩,
         ⟨.value, .basic .int, none, .name "b" 13⟩] false rfl (by decide)
  ⟨h.1 0 (List.mem_singleton.mpr rfl), h.2.2 (by decide)⟩

/-- C7: in the return-statement context, the arity diagnostic of initVars
is a single result-count diagnostic positioned at the first extra value
when there are more values than results, and at the last provided value
when there are fewer values than results; its message reads too many or
not enough return values accordingly. -/
theorem initVars_return_arity_position (env : Env) (st : St) (lhs : List VarId)
    (orig_rhs : List SExpr) (rpos : Nat)
    (st1 : St) (rhs : List Operand) (cOk : Bool)
    (hev : env.exprList st orig_rhs false = (st1, rhs, cOk))
    (hlen : lhs.length ≠ rhs.length)
    (hnone : ∀ x ∈ rhs, x.mode ≠ .invalid) :
    ∃ d, (initVars env st lhs orig_rhs (some rpos)).2 = [d]
      ∧ d.code = .WrongResultCount
      ∧ (lhs.length < rhs.length →
          ∃ xe, rhs[lhs.length]? = some xe ∧ d.pos = xe.expr.pos
            ∧ d.msg = "too many return values")
      ∧ (rhs.length < lhs.length → ∀ xl, rhs.getLast? = some xl →
          d.pos = xl.expr.pos ∧ d.msg = "not enough return values") := by
  have hany : ¬((rhs.any fun x => x.mode == Mode.invalid) = true) := by
    intro hc
    rcases List.any_eq_true.mp hc with ⟨x, hx, hxm⟩
    exact hnone x hx (by simpa using hxm)
  rw [initVars_eq env st lhs orig_rhs (some rpos) st1 rhs cOk (by simpa using hev)]
  unfold initVarsPost
  rw [if_pos hlen, if_neg hany]
  dsimp only
  by_cases hmore : lhs.length < rhs.length
  · rw [dif_pos hmore]
    refine ⟨_, rfl, rfl, ?_, ?_⟩
    · intro _
      refine ⟨rhs.get ⟨lhs.length, hmore⟩, ?_, rfl, by dsimp only; decide⟩
      rw [List.getElem?_eq_getElem hmore]
      simp [List.get_eq_getElem]
    · intro hless _ _
      exact absurd hmore (by omega)
  · rw [dif_neg hmore]
    refine ⟨_, rfl, ?_, ?_, ?_⟩
    · cases hgl : rhs.getLast? <;> rfl
    · intro hc
      exact absurd hc hmore
    · intro hless xl hgl
      rw [hgl]
      exact ⟨rfl, by dsimp only; decide⟩

/-- Closed instance of the C7 theorem: a return statement with one result
and two values draws the too-many diagnostic at the second value. -/
theorem initVars_return_arity_position_witness :
    ∃ d, (initVars mEnv st0 [0] [.name "a" 11, .name "b" 13] (some 99)).2 = [d]
      ∧ d.code = .WrongResultCount
      ∧ (([0] : List VarId).length
            < ([⟨.value, .basic .int, none, .name "a" 11⟩,
                ⟨.value, .basic .int, none, .name "b" 13⟩] : List Operand).length →
          ∃ xe, ([⟨.value, .basic .int, none, .name "a" 11⟩,
                  ⟨.value, .basic .int, none, .name "b" 13⟩] : List Operand)[([0] : List VarId).length]?
              = some xe
            ∧ d.pos = xe.expr.pos ∧ d.msg = "too many return values")
      ∧ (([⟨.value, .basic .int, none, .name "a" 11⟩,
           ⟨.value, .basic .int, none, .name "b" 13⟩] : List Operand).length
            < ([0] : List VarId).length →
          ∀ xl, ([⟨.value, .basic .int, none, .name "a" 11⟩,
                  ⟨.value, .basic .int, none, .name "b" 13⟩] : List Operand).getLast?
              = some xl →
            d.pos = xl.expr.pos ∧ d.msg = "not enough return values") :=
  initVars_return_arity_position mEnv st0 [0] [.name "a" 11, .name "b" 13] 99
    st0 [⟨.value, .basic .int, none, .name "a" 11⟩,
         ⟨.value, .basic .int, none, .name "b" 13⟩] false rfl (by decide) (by decide)

/-!  Claim C9.  The no-new-variables error is the only soft diagnostic
this file can emit; the lemmas below check that every other diagnostic
producer yields hard diagnostics only. -/

/-- Membership in a conditional singleton list pins the element down. -/
theorem mem_ite_singleton {α : Type} {c : Prop} [Decidable c] {d x : α}
    (h : d ∈ if c then [x] else ([] : List α)) : d = x := by
  split at h
  · simpa using h
  · simp at h

/-- The tail of assignment emits hard diagnostics only. -/
theorem assignmentTail_soft (env : Env) (st : St) (x : Operand) (T : Option Ty)
    (context : String) :
    ∀ d ∈ (assignmentTail env st x T context).2.2, d.soft = false := by
  intro d hd
  unfold assignmentTail at hd
  cases T with
  | none =>
    dsimp only at hd
    rw [mem_ite_singleton hd]
    rfl
  | some t =>
    dsimp only at hd
    split at hd
    · rw [mem_ite_singleton hd]
      rfl
    · rw [List.mem_append] at hd
      rcases hd with hd | hd
      · rw [mem_ite_singleton hd]
        rfl
      · simp only [List.mem_singleton] at hd
        subst hd
        rfl

/-- The conversion step of assignment emits hard diagnostics only. -/
theorem assignmentConv_soft (env : Env) (st : St) (x : Operand) (T : Option Ty)
    (context : String) (target : Ty) :
    ∀ d ∈ (assignmentConv env st x T context target).2.2, d.soft = false := by
  intro d hd
  unfold assignmentConv at hd
  rcases hr : env.implicitTypeAndValue x target with ⟨nt, vl, cd⟩
  rw [hr] at hd
  dsimp only at hd
  cases cd with
  | some c =>
    dsimp only at hd
    simp only [List.mem_singleton] at hd
    subst hd
    rfl
  | none =>
    dsimp only at hd
    cases vl <;> dsimp only at hd <;> split at hd <;>
      exact assignmentTail_soft env _ _ T context d hd

/-- assignment emits hard diagnostics only. -/
theorem assignment_soft (env : Env) (st : St) (x : Operand) (T : Option Ty)
    (context : String) :
    ∀ d ∈ (assignment env st x T context).2.2, d.soft = false := by
  intro d hd
  unfold assignment at hd
  by_cases h1 : (singleValue x).mode = .invalid
  · rw [if_pos h1] at hd
    simp at hd
  · rw [if_neg h1] at hd
    by_cases h2 : assignableMode (singleValue x).mode = true
    · rw [if_pos h2] at hd
      by_cases h3 : isUntyped (singleValue x).typ = true
      · rw [if_pos h3] at hd
        by_cases h4 : (singleValue x).isNil = true
        · rw [if_pos h4] at hd
          cases T with
          | none =>
            dsimp only at hd
            simp only [List.mem_singleton] at hd
            subst hd
            rfl
          | some t =>
            dsimp only at hd
            exact assignmentConv_soft env st _ _ context t d hd
        · rw [if_neg h4] at hd
          cases T with
          | none =>
            dsimp only at hd
            exact assignmentConv_soft env st _ _ context _ d hd
          | some t =>
            dsimp only at hd
            split at hd <;> exact assignmentConv_soft env st _ _ context _ d hd
      · rw [if_neg h3] at hd
        exact assignmentTail_soft env st _ T context d hd
    · rw [if_neg h2] at hd
      simp only [List.mem_singleton] at hd
      subst hd
      rfl

/-- The delegation step of initVar emits hard diagnostics only. -/
theorem initVarAssign_soft (env : Env) (st : St) (vid : VarId) (x : Operand)
    (t : Ty) (context : String) :
    ∀ d ∈ (initVarAssign env st vid x t context).2.2, d.soft = false := by
  intro d hd
  unfold initVarAssign at hd
  dsimp only at hd
  split at hd <;> exact assignment_soft env st x (some t) context d hd

/-- initVar emits hard diagnostics only. -/
theorem initVar_soft (env : Env) (st : St) (vid : VarId) (x : Operand)
    (context : String) :
    ∀ d ∈ (initVar env st vid x context).2.2, d.soft = false := by
  intro d hd
  unfold initVar at hd
  dsimp only at hd
  by_cases h1 : (x.mode = .invalid ∨ x.typ = invalidType
      ∨ (st.vars vid).typ = some invalidType)
  · rw [if_pos h1] at hd
    simp at hd
  · rw [if_neg h1] at hd
    rcases hv : (st.vars vid).typ with _ | t
    · rw [hv] at hd
      dsimp only at hd
      by_cases h3 : isUntyped x.typ = true
      · rw [if_pos h3] at hd
        by_cases h4 : x.typ = .basic .untypedNil
        · rw [if_pos h4] at hd
          simp only [List.mem_singleton] at hd
          subst hd
          rfl
        · rw [if_neg h4] at hd
          exact initVarAssign_soft env _ vid x _ context d hd
      · rw [if_neg h3] at hd
        exact initVarAssign_soft env _ vid x _ context d hd
    · rw [hv] at hd
      dsimp only at hd
      exact initVarAssign_soft env st vid x t context d hd

/-- The delegation loop of initVars emits hard diagnostics only. -/
theorem initVarsLoop_soft (env : Env) (context : String) :
    ∀ (ls : List VarId) (st : St) (rs : List Operand),
      ∀ d ∈ (initVarsLoop env context st ls rs).2.1, d.soft = false := by
  intro ls
  induction ls with
  | nil =>
    intro st rs d hd
    simp [initVarsLoop] at hd
  | cons l ls ih =>
    intro st rs d hd
    cases rs with
    | nil => simp [initVarsLoop] at hd
    | cons r rs =>
      simp only [initVarsLoop] at hd
      try dsimp only at hd
      rw [List.mem_append] at hd
      rcases hd with hd | hd
      · exact initVar_soft env st l r context d hd
      · exact ih _ _ d hd

/-- The plain-assignment arity diagnostic is hard. -/
theorem assignError_soft (env : Env) (rhs : List SExpr) (nvars nvals : Nat) :
    (assignError env rhs nvars nvals).soft = false := by
  unfold assignError
  split
  · split <;> rfl
  · rfl

/-- The post-evaluation stage of initVars emits hard diagnostics only. -/
theorem initVarsPost_soft (env : Env) (st : St) (lhs : List VarId)
    (orig_rhs : List SExpr) (returnPos : Option Nat) (rhs : List Operand)
    (cOk : Bool) :
    ∀ d ∈ (initVarsPost env st lhs orig_rhs returnPos rhs cOk).2, d.soft = false := by
  intro d hd
  unfold initVarsPost at hd
  by_cases h1 : lhs.length ≠ rhs.length
  · rw [if_pos h1] at hd
    by_cases h2 : (rhs.any fun x => x.mode == Mode.invalid) = true
    · rw [if_pos h2] at hd
      simp at hd
    · rw [if_neg h2] at hd
      cases returnPos with
      | some rpos =>
        dsimp only at hd
        simp only [List.mem_singleton] at hd
        subst hd
        rfl
      | none =>
        dsimp only at hd
        simp only [List.mem_singleton] at hd
        subst hd
        exact assignError_soft env orig_rhs lhs.length rhs.length
  · rw [if_neg h1] at hd
    repeat' split at hd
    all_goals
      first
        | exact initVarsLoop_soft env _ lhs _ rhs d hd
        | (simp only [List.mem_append] at hd;
           rcases hd with hd | hd;
           exacts [initVar_soft env _ _ _ _ d hd, initVar_soft env _ _ _ _ d hd])
        | simp at hd

/-- initVars emits hard diagnostics only. -/
theorem initVars_soft (env : Env) (st : St) (lhs : List VarId)
    (orig_rhs : List SExpr) (returnPos : Option Nat) :
    ∀ d ∈ (initVars env st lhs orig_rhs returnPos).2, d.soft = false := by
  intro d hd
  unfold initVars at hd
  exact initVarsPost_soft env _ lhs orig_rhs returnPos _ _ d hd

/-- One collection step of shortVarDecl emits hard diagnostics only. -/
theorem shortVarStep_soft (env : Env) (st : St) (seen : List String) (e : SExpr) :
    ∀ d ∈ (shortVarStep env st seen e).2.2.2.2.2, d.soft = false := by
  intro d hd
  unfold shortVarStep at hd
  cases e <;> dsimp only at hd
  case name nm p =>
    split at hd
    · simp only [List.mem_singleton] at hd
      subst hd
      rfl
    · split at hd
      · split at hd
        · simp at hd
        · simp only [List.mem_singleton] at hd
          subst hd
          rfl
      · simp at hd
  all_goals
    simp only [List.mem_singleton] at hd
  all_goals (subst hd; rfl)

/-- The collection loop of shortVarDecl emits hard diagnostics only. -/
theorem shortVarCollect_soft (env : Env) :
    ∀ (ls : List SExpr) (st : St) (seen : List String),
      ∀ d ∈ (shortVarCollect env st seen ls).2.2.2.2, d.soft = false := by
  intro ls
  induction ls with
  | nil =>
    intro st seen d hd
    simp [shortVarCollect] at hd
  | cons e rest ih =>
    intro st seen d hd
    simp only [shortVarCollect] at hd
    try dsimp only at hd
    rw [List.mem_append] at hd
    rcases hd with hd | hd
    · exact shortVarStep_soft env st seen e d hd
    · exact ih _ _ d hd

/-- C9: shortVarDecl reports the soft no-new-variables error exactly when
the left-hand collection allocated no fresh non-blank variable and no
error occurred while processing the left-hand side; in particular, as
soon as one identifier is a fresh variable (even alongside redeclared
ones) no such error appears. -/
theorem shortVarDecl_no_new_vars (env : Env) (st : St) (pos : Nat)
    (lhs rhs : List SExpr) :
    (∃ d ∈ (shortVarDecl env st pos lhs rhs).2, d.soft = true ∧ d.code = .NoNewVar)
      ↔ ((shortVarCollect env st [] lhs).2.2.1 = []
          ∧ (shortVarCollect env st [] lhs).2.2.2.1 = false) := by
  unfold shortVarDecl
  dsimp only
  by_cases hc : ((shortVarCollect env st [] lhs).2.2.1.isEmpty
      && !(shortVarCollect env st [] lhs).2.2.2.1) = true
  · rw [if_pos hc]
    rw [Bool.and_eq_true, List.isEmpty_iff, Bool.not_eq_true'] at hc
    constructor
    · intro _
      exact hc
    · intro _
      exact ⟨diagNoNewVar pos, by simp [List.mem_append, diagNoNewVar], rfl, rfl⟩
  · rw [if_neg hc]
    constructor
    · rintro ⟨d, hd, hsoft, _⟩
      rw [List.mem_append] at hd
      rcases hd with hd | hd
      · rw [shortVarCollect_soft env lhs st [] d hd] at hsoft
        exact absurd hsoft (by simp)
      · rw [initVars_soft env _ _ rhs none d hd] at hsoft
        exact absurd hsoft (by simp)
    · rintro ⟨h1, h2⟩
      exact absurd (by rw [h1, h2]; rfl) hc

/-- An environment for the closed C9 instance: the immediate scope
already holds the identifier x as a variable. -/
def c9Env : Env :=
  { testEnv with
    scopeLookup := fun _ nmq => if nmq = "x" then some (.var 0) else none }

/-- Closed instance of the C9 theorem: a short declaration whose sole
identifier redeclares an existing same-scope variable reports the soft
no-new-variables error. -/
theorem shortVarDecl_no_new_vars_witness :
    ∃ d ∈ (shortVarDecl c9Env st0 17 [.name "x" 1] [.name "y" 3]).2,
      d.soft = true ∧ d.code = .NoNewVar :=
  (shortVarDecl_no_new_vars c9Env st0 17 [.name "x" 1] [.name "y" 3]).mpr
    (by constructor <;> rfl)

end Types2Assign
